import Mathlib

/-!
Verification development for the report subsystem of ludusavi
(`src/cli/report.rs`): the dual-mode report accumulator (`Reporter`),
its per-entity API shapes, the error-concern tracker (`ApiErrors`),
the overall-status aggregation, and the cloud-change reporter.

External collaborator types (scan results, duplicate detector, overall
status internals, translator strings, serde serialization helpers) are
modelled from the specification, as noted on each definition; everything
else is translated directly from `src/cli/report.rs`.
-/

/-- Modelled from the spec: `ScanChange` (external enum from `crate::scan`),
the classification of an entry relative to the previous backup:
New / Different / Same / Unknown. -/
inductive ScanChange
| New
| Different
| Same
| Unknown
deriving DecidableEq, Repr

/-- Modelled from the spec: serde serialization of the external `ScanChange`
enum, as a JSON string of the variant name (visible in the in-repo tests). -/
def ScanChange.name : ScanChange → String
| .New => "New"
| .Different => "Different"
| .Same => "Same"
| .Unknown => "Unknown"

/-- Modelled from the spec: the single-character change symbol of the
external `ScanChange` enum, used for text-mode line markers. -/
def ScanChange.symbol : ScanChange → Char
| .New => '+'
| .Different => 'Δ'
| .Same => '='
| .Unknown => '?'

/-- Modelled from the spec: a rank giving the total order on change kinds,
used when cloud-change pairs are sorted by (change, path). -/
def ScanChange.rank : ScanChange → Nat
| .New => 0
| .Different => 1
| .Same => 2
| .Unknown => 3

/-- Modelled from the spec: `OperationStepDecision` (external enum), at
least \x7bProcessed, Skipped/Ignored, PreviewOnly\x7d. -/
inductive OperationStepDecision
| Processed
| Ignored
| PreviewOnly
deriving DecidableEq, Repr

/-- Modelled from the spec: serde name of the decision (seen in tests as
e.g. "Processed"). -/
def OperationStepDecision.name : OperationStepDecision → String
| .Processed => "Processed"
| .Ignored => "Ignored"
| .PreviewOnly => "PreviewOnly"

/-- Modelled from the spec: a found file of a `ScanInfo` — rendered path,
size, hash, ignored flag, change kind, and an optional alternate
(redirect/original) path surfaced by `alt_readable`. -/
structure ScannedFile where
  path : String
  size : Nat
  hash : String
  ignored : Bool
  change : ScanChange
  alt : Option String
deriving DecidableEq, Repr

/-- Modelled from the spec: `readable(restoring)` renders the pathological
collaborator path; in the model the rendered path is the `path` field. -/
def ScannedFile.readable (f : ScannedFile) : String := f.path

/-- Modelled from the spec: `alt_readable(restoring)` surfaces the optional
alternate path of the file. -/
def ScannedFile.alt_readable (f : ScannedFile) : Option String := f.alt

/-- Modelled from the spec: one registry value of a found registry key:
ignored flag and change kind. -/
structure ScannedRegistryValue where
  ignored : Bool
  change : ScanChange
deriving DecidableEq, Repr

/-- Modelled from the spec: a found registry key of a `ScanInfo` — path,
ignored flag, change kind, and a nested value map. -/
structure ScannedRegistry where
  path : String
  ignored : Bool
  change : ScanChange
  values : List (String × ScannedRegistryValue)
deriving DecidableEq, Repr

/-- Modelled from the spec: `BackupInfo` (external) — the sets of failed
file entries and failed registry key paths. -/
structure BackupInfo where
  failed_files : List ScannedFile
  failed_registry : List String
deriving DecidableEq, Repr

/-- Modelled from the spec: `ScanInfo` (external) — game name, found files,
found registry keys, a reportable predicate, an overall change
classification, and a restore/backup direction flag. -/
structure ScanInfo where
  game_name : String
  found_files : List ScannedFile
  found_registry_keys : List ScannedRegistry
  can_report_game : Bool
  overall_change : ScanChange
  restoring : Bool
deriving DecidableEq, Repr

/-- Modelled from the spec: the size-sum function of `ScanInfo`, optionally
restricted to a backup result: with a backup result given, only files not
in its failed set count. -/
def ScanInfo.sum_bytes (s : ScanInfo) (bi : Option BackupInfo) : Nat :=
  (s.found_files.filter (fun f =>
    match bi with
    | none => true
    | some b => decide (f ∉ b.failed_files))).foldl (fun acc f => acc + f.size) 0

/-- Modelled from the spec: `DuplicateDetector` (external) — resolved-status
queries at game / file / registry-key / registry-value granularity, plus
reverse lookup of the game names sharing each fingerprint. -/
structure DuplicateDetector where
  game_resolved : String → Bool
  file_resolved : ScannedFile → Bool
  file_owners : ScannedFile → List String
  registry_resolved : String → Bool
  registry_owners : String → List String
  registry_value_resolved : String → String → Bool
  registry_value_owners : String → String → List String

/-- Modelled from the spec: `Backup` descriptor (external) — name, UTC
timestamp, optional OS tag, optional comment, locked flag. -/
structure Backup where
  name : String
  when_utc : String
  os : Option String
  comment : Option String
  locked : Bool
deriving DecidableEq, Repr

/-- Modelled from the spec: `CloudChange` (external) — a path together with
its change kind. -/
structure CloudChange where
  path : String
  change : ScanChange
deriving DecidableEq, Repr

/-- A JSON tree, the target of the structured-mode serialization model. -/
inductive Json
| null
| bool (b : Bool)
| nat (n : Nat)
| str (s : String)
| arr (xs : List Json)
| obj (fields : List (String × Json))

/-- Modelled from the spec: the strict lexicographic order on character
lists, standing in for the external `Ord` on rendered paths and keys. -/
def strLtCh : List Char → List Char → Bool
| [], [] => false
| [], _ :: _ => true
| _ :: _, [] => false
| a :: as, b :: bs => if a = b then strLtCh as bs else decide (a.val.toNat < b.val.toNat)

/-- The non-strict order on strings: `a` precedes `b` iff `b` is not
strictly below `a`. -/
def strLe (a b : String) : Prop := strLtCh b.data a.data = false

instance : DecidableRel strLe := fun a b => by
  unfold strLe
  infer_instance

lemma strLtCh_asymm : ∀ {l1 l2 : List Char},
    strLtCh l1 l2 = true → strLtCh l2 l1 = false
| [], [], h => by simp [strLtCh] at h
| [], _ :: _, _ => rfl
| _ :: _, [], h => by simp [strLtCh] at h
| a :: as, b :: bs, h => by
  by_cases hab : a = b
  · subst hab
    simp only [strLtCh, if_pos rfl] at h ⊢
    exact strLtCh_asymm h
  · have hba : b ≠ a := fun e => hab e.symm
    simp only [strLtCh, if_neg hab, decide_eq_true_eq] at h
    simp only [strLtCh, if_neg hba, decide_eq_false_iff_not]
    omega

lemma strLtCh_eq_of : ∀ {l1 l2 : List Char},
    strLtCh l1 l2 = false → strLtCh l2 l1 = false → l1 = l2
| [], [], _, _ => rfl
| [], _ :: _, h, _ => by simp [strLtCh] at h
| _ :: _, [], _, h => by simp [strLtCh] at h
| a :: as, b :: bs, h1, h2 => by
  by_cases hab : a = b
  · subst hab
    simp only [strLtCh, if_pos rfl] at h1 h2
    exact congrArg (a :: ·) (strLtCh_eq_of h1 h2)
  · have hba : b ≠ a := fun e => hab e.symm
    simp only [strLtCh, if_neg hab, decide_eq_false_iff_not] at h1
    simp only [strLtCh, if_neg hba, decide_eq_false_iff_not] at h2
    exact absurd (Char.ext (UInt32.toNat.inj (by omega))) hab

lemma strLtCh_trans : ∀ {l1 l2 l3 : List Char},
    strLtCh l1 l2 = true → strLtCh l2 l3 = true → strLtCh l1 l3 = true
| [], [], _, h1, _ => by simp [strLtCh] at h1
| [], _ :: _, [], _, h2 => by simp [strLtCh] at h2
| [], _ :: _, _ :: _, _, _ => rfl
| _ :: _, [], _, h1, _ => by simp [strLtCh] at h1
| _ :: _, _ :: _, [], _, h2 => by simp [strLtCh] at h2
| a :: as, b :: bs, c :: cs, h1, h2 => by
  by_cases hab : a = b
  · subst hab
    simp only [strLtCh, if_pos rfl] at h1
    by_cases hac : a = c
    · subst hac
      simp only [strLtCh, if_pos rfl] at h2 ⊢
      exact strLtCh_trans h1 h2
    · simp only [strLtCh, if_neg hac] at h2 ⊢
      exact h2
  · simp only [strLtCh, if_neg hab, decide_eq_true_eq] at h1
    by_cases hbc : b = c
    · subst hbc
      have hac : a ≠ b := hab
      simp only [strLtCh, if_neg hac, decide_eq_true_eq]
      exact h1
    · simp only [strLtCh, if_neg hbc, decide_eq_true_eq] at h2
      have hac : a ≠ c := by
        intro e
        subst e
        omega
      simp only [strLtCh, if_neg hac, decide_eq_true_eq]
      omega

lemma strLe_total (a b : String) : strLe a b ∨ strLe b a := by
  unfold strLe
  cases h : strLtCh b.data a.data
  · exact Or.inl rfl
  · exact Or.inr (strLtCh_asymm h)

lemma strLe_trans {a b c : String} (h1 : strLe a b) (h2 : strLe b c) :
    strLe a c := by
  unfold strLe at h1 h2 ⊢
  cases hca : strLtCh c.data a.data
  · rfl
  · exfalso
    cases hbc : strLtCh b.data c.data
    · have : c.data = b.data := strLtCh_eq_of h2 hbc
      rw [this] at hca
      exact absurd hca (by simp [h1])
    · have := strLtCh_trans hbc hca
      exact absurd this (by simp [h1])

instance : IsTotal String strLe := ⟨strLe_total⟩

instance : IsTrans String strLe := ⟨fun _ _ _ => strLe_trans⟩

instance {α : Type} : DecidableRel (fun (a b : String × α) => strLe a.1 b.1) :=
  fun a b => inferInstanceAs (Decidable (strLe a.1 b.1))

instance {α : Type} : IsTotal (String × α) (fun a b => strLe a.1 b.1) :=
  ⟨fun a b => strLe_total a.1 b.1⟩

instance {α : Type} : IsTrans (String × α) (fun a b => strLe a.1 b.1) :=
  ⟨fun _ _ _ h1 h2 => strLe_trans h1 h2⟩

/-- Modelled from the spec: `crate::serialization::ordered_map` /
`ordered_set`: map keys are sorted before serialization. Sorting of
assoc-list pairs by key. -/
def sortPairs {α : Type} (l : List (String × α)) : List (String × α) :=
  List.insertionSort (fun a b => strLe a.1 b.1) l

/-- Sorting of a plain string list (for `ordered_set`). -/
def sortStrings (l : List String) : List String :=
  List.insertionSort strLe l

/-- Insertion into an unordered map (`HashMap::insert` / `BTreeMap` collect):
any previous binding of the key is discarded, the new binding added. -/
def insertPair {α : Type} (k : String) (v : α) (l : List (String × α)) :
    List (String × α) :=
  (l.filter (fun kv => decide (kv.1 ≠ k))) ++ [(k, v)]

/-- The keys of a top-level JSON object (empty for non-objects). -/
def Json.topKeys : Json → List String
| .obj fs => fs.map Prod.fst
| _ => []

/-- Lookup of a top-level field of a JSON object. -/
def Json.topLookup (k : String) : Json → Option Json
| .obj fs => (fs.find? (fun kv => kv.1 == k)).map Prod.snd
| _ => none

/-- Whether the tree is literally the boolean `false`. -/
def Json.isFalse : Json → Bool
| .bool false => true
| _ => false

/-- Whether the tree is literally the empty array. -/
def Json.isEmptyArr : Json → Bool
| .arr [] => true
| _ => false

/-- A field forbidden by the omission rule: a `false` for `failed` or
`ignored`, or an empty `duplicatedBy` array. -/
def Json.badPair (k : String) (v : Json) : Bool :=
  ((k == ("failed")) && Json.isFalse v) ||
  ((k == ("ignored")) && Json.isFalse v) ||
  ((k == ("duplicatedBy")) && Json.isEmptyArr v)

/-- The head element of a JSON array, when there is one. -/
def Json.arrHead : Json → Option Json
| .arr (x :: _) => some x
| _ => none

/-- The omission rule, as a predicate on serialized trees: no `null`
anywhere, and no field anywhere holding a `false` for `failed`/`ignored`
or an empty `duplicatedBy` array. -/
inductive Json.Clean : Json → Prop
| bool (b : Bool) : Json.Clean (.bool b)
| nat (n : Nat) : Json.Clean (.nat n)
| str (s : String) : Json.Clean (.str s)
| arr (xs : List Json) (h : ∀ x ∈ xs, Json.Clean x) : Json.Clean (.arr xs)
| obj (fs : List (String × Json))
    (hbad : ∀ kv ∈ fs, Json.badPair kv.1 kv.2 = false)
    (hrec : ∀ kv ∈ fs, Json.Clean kv.2) : Json.Clean (.obj fs)

/-- Modelled from the spec: the flat string rendering standing in for
`serde_json::to_string_pretty` (external); a deterministic rendering of
the JSON tree. -/
def Json.render : Json → String
| .null => "null"
| .bool b => cond b ("true") ("false")
| .nat n => toString n
| .str s => "\x22" ++ s ++ "\x22"
| .arr xs => ("[") ++ String.intercalate (",") (xs.attach.map (fun x =>
    match x with
    | ⟨j, _⟩ => Json.render j)) ++ ("]")
| .obj fs => ("\x7b") ++ String.intercalate (",") (fs.attach.map (fun kv =>
    match kv with
    | ⟨(k, v), _⟩ => "\x22" ++ k ++ "\x22:" ++ Json.render v)) ++ ("\x7d")
decreasing_by
all_goals simp_wf
all_goals first
| (have h := List.sizeOf_lt_of_mem (by assumption); omega)
| (have h := List.sizeOf_lt_of_mem (by assumption); simp only [Prod.mk.sizeOf_spec] at h; omega)
/-- `ApiErrors` from `src/cli/report.rs`: the cross-game error concerns;
every field is an optional, absent by default. -/
structure ApiErrors where
  some_games_failed : Option Bool := none
  unknown_games : Option (List String) := none
  cloud_conflict : Option Unit := none
  cloud_sync_failed : Option Unit := none
deriving DecidableEq, Repr

/-- Modelled from the spec: the translator's cloud-conflict warning string
(with its warning marker already applied). -/
def cloudConflictWarning : String := ("[WARNING] Cloud data conflict")

/-- Modelled from the spec: the translator's cloud-sync-failure warning
string (with its warning marker already applied). -/
def cloudSyncFailedWarning : String := ("[WARNING] Unable to synchronize with cloud")

/-- `ApiErrors::messages` from `src/cli/report.rs`: the warning lines used
by the standard reporter — cloud-conflict first, then cloud-sync-failure. -/
def ApiErrors.messages (e : ApiErrors) : List String :=
  (if e.cloud_conflict.isSome then [cloudConflictWarning] else []) ++
  (if e.cloud_sync_failed.isSome then [cloudSyncFailedWarning] else [])

/-- Serde serialization of `ApiErrors` (all four fields skipped when
`None`). -/
def ApiErrors.toJson (e : ApiErrors) : Json :=
  Json.obj (
    (match e.some_games_failed with
     | none => []
     | some b => [(("someGamesFailed"), Json.bool b)]) ++
    (match e.unknown_games with
     | none => []
     | some gs => [(("unknownGames"), Json.arr (gs.map Json.str))]) ++
    (match e.cloud_conflict with
     | none => []
     | some _ => [(("cloudConflict"), Json.obj [])]) ++
    (match e.cloud_sync_failed with
     | none => []
     | some _ => [(("cloudSyncFailed"), Json.obj [])]))

/-- `ApiFile` from `src/cli/report.rs`. -/
structure ApiFile where
  failed : Bool := false
  ignored : Bool := false
  change : ScanChange := .Unknown
  bytes : Nat := 0
  original_path : Option String := none
  redirected_path : Option String := none
  duplicated_by : List String := []
deriving DecidableEq, Repr

/-- Serde serialization of `ApiFile`: `failed`/`ignored` skipped when false,
path options skipped when absent, `duplicatedBy` sorted and skipped when
empty; `change` and `bytes` always emitted. -/
def ApiFile.toJson (f : ApiFile) : Json :=
  Json.obj (
    (if f.failed then [(("failed"), Json.bool f.failed)] else []) ++
    (if f.ignored then [(("ignored"), Json.bool f.ignored)] else []) ++
    [(("change"), Json.str f.change.name), (("bytes"), Json.nat f.bytes)] ++
    (match f.original_path with
     | none => []
     | some p => [(("originalPath"), Json.str p)]) ++
    (match f.redirected_path with
     | none => []
     | some p => [(("redirectedPath"), Json.str p)]) ++
    (if f.duplicated_by.isEmpty then []
     else [(("duplicatedBy"), Json.arr ((sortStrings f.duplicated_by).map Json.str))]))

/-- `ApiRegistryValue` from `src/cli/report.rs`: note it carries no
`failed` field at all. -/
structure ApiRegistryValue where
  ignored : Bool := false
  change : ScanChange := .Unknown
  duplicated_by : List String := []
deriving DecidableEq, Repr

/-- Serde serialization of `ApiRegistryValue`. -/
def ApiRegistryValue.toJson (v : ApiRegistryValue) : Json :=
  Json.obj (
    (if v.ignored then [(("ignored"), Json.bool v.ignored)] else []) ++
    [(("change"), Json.str v.change.name)] ++
    (if v.duplicated_by.isEmpty then []
     else [(("duplicatedBy"), Json.arr ((sortStrings v.duplicated_by).map Json.str))]))

/-- `ApiRegistry` from `src/cli/report.rs`. -/
structure ApiRegistry where
  failed : Bool := false
  ignored : Bool := false
  change : ScanChange := .Unknown
  duplicated_by : List String := []
  values : List (String × ApiRegistryValue) := []
deriving DecidableEq, Repr

/-- Serde serialization of `ApiRegistry`: `values` (a sorted map) skipped
when empty. -/
def ApiRegistry.toJson (r : ApiRegistry) : Json :=
  Json.obj (
    (if r.failed then [(("failed"), Json.bool r.failed)] else []) ++
    (if r.ignored then [(("ignored"), Json.bool r.ignored)] else []) ++
    [(("change"), Json.str r.change.name)] ++
    (if r.duplicated_by.isEmpty then []
     else [(("duplicatedBy"), Json.arr ((sortStrings r.duplicated_by).map Json.str))]) ++
    (if r.values.isEmpty then []
     else [(("values"), Json.obj ((sortPairs r.values).map
        (fun kv => (kv.1, ApiRegistryValue.toJson kv.2))))]))

/-- `ApiBackup` from `src/cli/report.rs` (`when` held as the raw UTC
timestamp string). -/
structure ApiBackup where
  name : String
  when_utc : String
  os : Option String := none
  comment : Option String := none
  locked : Bool := false
deriving DecidableEq, Repr

/-- Serde serialization of `ApiBackup`: `os` and `comment` skipped when
absent; `name`, `when` and `locked` always emitted. -/
def ApiBackup.toJson (b : ApiBackup) : Json :=
  Json.obj (
    [(("name"), Json.str b.name), (("when"), Json.str b.when_utc)] ++
    (match b.os with
     | none => []
     | some o => [(("os"), Json.str o)]) ++
    (match b.comment with
     | none => []
     | some c => [(("comment"), Json.str c)]) ++
    [(("locked"), Json.bool b.locked)])

/-- `ApiGame` from `src/cli/report.rs`: the three-way game shape. -/
inductive ApiGame
| Operative (decision : OperationStepDecision) (change : ScanChange)
    (files : List (String × ApiFile)) (registry : List (String × ApiRegistry))
| Stored (backups : List ApiBackup)
| Found
deriving DecidableEq, Repr

/-- Serde serialization of `ApiGame` (untagged): `files` and `registry`
are ordered maps, always emitted for an operative game. -/
def ApiGame.toJson : ApiGame → Json
| .Operative decision change files registry =>
    Json.obj (
      [(("decision"), Json.str decision.name), (("change"), Json.str change.name),
       (("files"), Json.obj ((sortPairs files).map (fun kv => (kv.1, ApiFile.toJson kv.2)))),
       (("registry"), Json.obj ((sortPairs registry).map (fun kv => (kv.1, ApiRegistry.toJson kv.2))))])
| .Stored backups => Json.obj [(("backups"), Json.arr (backups.map ApiBackup.toJson))]
| .Found => Json.obj []

/-- Modelled from the spec: `OperationStatus` (external) — run-wide totals,
all zero by default. -/
structure OperationStatus where
  total_games : Nat := 0
  total_bytes : Nat := 0
  processed_games : Nat := 0
  processed_bytes : Nat := 0
  changed_new : Nat := 0
  changed_different : Nat := 0
  changed_same : Nat := 0
deriving DecidableEq, Repr

/-- Modelled from the spec: serde serialization of `OperationStatus` — all
fields always emitted, the change histogram nested under `changedGames`. -/
def OperationStatus.toJson (s : OperationStatus) : Json :=
  Json.obj
    [(("totalGames"), Json.nat s.total_games),
     (("totalBytes"), Json.nat s.total_bytes),
     (("processedGames"), Json.nat s.processed_games),
     (("processedBytes"), Json.nat s.processed_bytes),
     (("changedGames"), Json.obj
       [(("new"), Json.nat s.changed_new),
        (("different"), Json.nat s.changed_different),
        (("same"), Json.nat s.changed_same)])]

/-- Modelled from the spec: `OperationStatus::add_game` — increments
`totalGames`, adds the scan's total bytes; when processed, increments
`processedGames` and adds the backup-restricted byte sum; classifies the
overall change into exactly one of new/different/same (Unknown counts in
none). -/
def OperationStatus.add_game (s : OperationStatus) (scan : ScanInfo)
    (backup : Option BackupInfo) (processed : Bool) : OperationStatus :=
  { s with
    total_games := s.total_games + 1
    total_bytes := s.total_bytes + scan.sum_bytes none
    processed_games := s.processed_games + (if processed then 1 else 0)
    processed_bytes := s.processed_bytes + (if processed then scan.sum_bytes backup else 0)
    changed_new := s.changed_new + (if scan.overall_change = .New then 1 else 0)
    changed_different := s.changed_different + (if scan.overall_change = .Different then 1 else 0)
    changed_same := s.changed_same + (if scan.overall_change = .Same then 1 else 0) }

/-- `JsonOutput` from `src/cli/report.rs`: the structured report document. -/
structure JsonOutput where
  errors : Option ApiErrors := none
  overall : Option OperationStatus := none
  games : List (String × ApiGame) := []
deriving DecidableEq, Repr

/-- Serde serialization of `JsonOutput`: `errors` and `overall` skipped
when absent; `games` an ordered map, always emitted. -/
def JsonOutput.toJson (o : JsonOutput) : Json :=
  Json.obj (
    (match o.errors with
     | none => []
     | some e => [(("errors"), ApiErrors.toJson e)]) ++
    (match o.overall with
     | none => []
     | some s => [(("overall"), OperationStatus.toJson s)]) ++
    [(("games"), Json.obj ((sortPairs o.games).map (fun kv => (kv.1, ApiGame.toJson kv.2))))])

/-- A buffered text-mode line of the standard reporter, with the
translator's formatting abstracted into the constructor arguments. -/
inductive Line
| header (name : String) (bytes : Nat) (decision : OperationStepDecision)
    (duplicated : Bool) (change : ScanChange)
| item (label : String) (successful ignored duplicated : Bool)
    (change : ScanChange) (nested : Bool)
| redirectedFrom (alt : String)
| redirectingTo (alt : String)
| blank
| text (s : String)
| backupLine (name : String) (stamp : String) (os : Option String)
    (locked : Bool) (comment : Option String)
deriving DecidableEq, Repr

/-- Modelled from the spec: the translator's text rendering of one buffered
line (bracketed status tags, single-character change symbols). -/
def Line.render : Line → String
| .header n b d dup ch =>
    n ++ (" [") ++ toString b ++ ("] [") ++ d.name ++ ("]") ++
    (cond dup (" [DUPLICATES]") ("")) ++
    (" [") ++ String.singleton ch.symbol ++ ("]:")
| .item l s i dup ch nested =>
    (cond nested ("    - ") ("  - ")) ++
    (cond s ("") ("[FAILED] ")) ++
    (cond i ("[IGNORED] ") ("")) ++
    (cond dup ("[DUPLICATED] ") ("")) ++
    ("[") ++ String.singleton ch.symbol ++ ("] ") ++ l
| .redirectedFrom a => ("    - Redirected from: ") ++ a
| .redirectingTo a => ("    - Redirecting to: ") ++ a
| .blank => ""
| .text s => s
| .backupLine n w os locked c =>
    ("  - \x22") ++ n ++ ("\x22 (") ++ w ++ (")") ++
    (match os with
     | none => ""
     | some o => (" [") ++ o ++ ("]")) ++
    (cond locked (" [locked]") ("")) ++
    (match c with
     | none => ""
     | some cm => (" - ") ++ cm)

/-- Modelled from the spec: `TRANSLATOR.cli_summary` — the formatted
overall summary block with counts, byte totals, and the destination
path. -/
def cliSummary (s : OperationStatus) (path : String) : String :=
  ("Overall:\n  Games: ") ++ toString s.total_games ++
  ("\n  Size: ") ++ toString s.processed_bytes ++ (" / ") ++ toString s.total_bytes ++
  ("\n  Location: ") ++ path

/-- `Reporter` from `src/cli/report.rs`: the dual-mode accumulator. -/
inductive Reporter
| Standard (parts : List Line) (status : Option OperationStatus) (errors : ApiErrors)
| Json (output : JsonOutput)
deriving DecidableEq, Repr

/-- `Reporter::standard()`: empty line buffer, all-zero present status,
empty concerns. -/
def Reporter.standard : Reporter := .Standard [] (some {}) {}

/-- `Reporter::json()`: absent errors, all-zero present overall, empty
game map. -/
def Reporter.json : Reporter := .Json { errors := none, overall := some {}, games := [] }

/-- `Reporter::set_errors`: applies the mutation to the standard errors, or
to the JSON errors block, creating it from the default if absent. -/
def Reporter.set_errors (r : Reporter) (f : ApiErrors → ApiErrors) : Reporter :=
  match r with
  | .Standard parts status errors => .Standard parts status (f errors)
  | .Json output =>
      match output.errors with
      | some errors => .Json { output with errors := some (f errors) }
      | none => .Json { output with errors := some (f {}) }

/-- `Reporter::trip_some_games_failed`. -/
def Reporter.trip_some_games_failed (r : Reporter) : Reporter :=
  r.set_errors (fun e => { e with some_games_failed := some true })

/-- `Reporter::trip_unknown_games`. -/
def Reporter.trip_unknown_games (r : Reporter) (games : List String) : Reporter :=
  r.set_errors (fun e => { e with unknown_games := some games })

/-- `Reporter::trip_cloud_conflict`. -/
def Reporter.trip_cloud_conflict (r : Reporter) : Reporter :=
  r.set_errors (fun e => { e with cloud_conflict := some () })

/-- `Reporter::trip_cloud_sync_failed`. -/
def Reporter.trip_cloud_sync_failed (r : Reporter) : Reporter :=
  r.set_errors (fun e => { e with cloud_sync_failed := some () })

/-- `Reporter::suppress_overall`. -/
def Reporter.suppress_overall : Reporter → Reporter
| .Standard parts _ errors => .Standard parts none errors
| .Json output => .Json { output with overall := none }

instance : DecidableRel (fun (a b : ScannedFile) => strLe a.path b.path) :=
  fun a b => inferInstanceAs (Decidable (strLe a.path b.path))

instance : IsTotal ScannedFile (fun a b => strLe a.path b.path) :=
  ⟨fun a b => strLe_total a.path b.path⟩

instance : IsTrans ScannedFile (fun a b => strLe a.path b.path) :=
  ⟨fun _ _ _ h1 h2 => strLe_trans h1 h2⟩

instance : DecidableRel (fun (a b : ScannedRegistry) => strLe a.path b.path) :=
  fun a b => inferInstanceAs (Decidable (strLe a.path b.path))

instance : IsTotal ScannedRegistry (fun a b => strLe a.path b.path) :=
  ⟨fun a b => strLe_total a.path b.path⟩

instance : IsTrans ScannedRegistry (fun a b => strLe a.path b.path) :=
  ⟨fun _ _ _ h1 h2 => strLe_trans h1 h2⟩

/-- Modelled from the spec: deterministic iteration — found files sorted by
rendered path before emission. -/
def sortFiles (l : List ScannedFile) : List ScannedFile :=
  List.insertionSort (fun a b => strLe a.path b.path) l

/-- Modelled from the spec: found registry keys sorted by path before
emission. -/
def sortRegs (l : List ScannedRegistry) : List ScannedRegistry :=
  List.insertionSort (fun a b => strLe a.path b.path) l

/-- `backup_info.failed_files.contains(entry)` from `add_game`. -/
def fileFailed (bi : BackupInfo) (f : ScannedFile) : Bool :=
  decide (f ∈ bi.failed_files)

/-- `backup_info.failed_registry.contains(&entry.path)` from `add_game`. -/
def regFailed (bi : BackupInfo) (e : ScannedRegistry) : Bool :=
  decide (e.path ∈ bi.failed_registry)

/-- The `ApiFile` built for one found file in the JSON branch of
`add_game`: failure from the failed-file set, the alternate path surfaced
as original (restore) or redirected (backup), and the duplicate-owner
names with the scan's own game name removed when unresolved. -/
def mkApiFile (restoring : Bool) (gname : String) (dd : DuplicateDetector)
    (bi : BackupInfo) (f : ScannedFile) : ApiFile :=
  { bytes := f.size
    failed := fileFailed bi f
    ignored := f.ignored
    change := f.change
    original_path := if restoring then f.alt_readable else none
    redirected_path := if restoring then none else f.alt_readable
    duplicated_by :=
      if !(dd.file_resolved f) then
        ((dd.file_owners f).filter (fun g => decide (g ≠ gname))).dedup
      else [] }

/-- The `ApiRegistryValue` built for one registry value in the JSON branch
of `add_game`. -/
def mkApiRegistryValue (gname : String) (dd : DuplicateDetector)
    (regPath valueName : String) (v : ScannedRegistryValue) : ApiRegistryValue :=
  { change := v.change
    ignored := v.ignored
    duplicated_by :=
      if !(dd.registry_value_resolved regPath valueName) then
        ((dd.registry_value_owners regPath valueName).filter (fun g => decide (g ≠ gname))).dedup
      else [] }

/-- The `ApiRegistry` built for one found registry key in the JSON branch
of `add_game`. -/
def mkApiRegistry (gname : String) (dd : DuplicateDetector) (bi : BackupInfo)
    (e : ScannedRegistry) : ApiRegistry :=
  { failed := regFailed bi e
    ignored := e.ignored
    change := e.change
    values := e.values.foldl
      (fun m kv => insertPair kv.1 (mkApiRegistryValue gname dd e.path kv.1 kv.2) m) []
    duplicated_by :=
      if !(dd.registry_resolved e.path) then
        ((dd.registry_owners e.path).filter (fun g => decide (g ≠ gname))).dedup
      else [] }

/-- The operative `ApiGame` entry inserted by the JSON branch of
`add_game`. -/
def mkApiGame (scan : ScanInfo) (bi : BackupInfo)
    (decision : OperationStepDecision) (dd : DuplicateDetector) : ApiGame :=
  .Operative decision scan.overall_change
    ((sortFiles scan.found_files).foldl
      (fun m f => insertPair f.readable (mkApiFile scan.restoring scan.game_name dd bi f) m) [])
    ((sortRegs scan.found_registry_keys).foldl
      (fun m e => insertPair e.path (mkApiRegistry scan.game_name dd bi e) m) [])

/-- The text lines emitted for one found file in the standard branch of
`add_game`: the item line, then the optional redirect/original line. -/
def fileLines (restoring : Bool) (dd : DuplicateDetector) (bi : BackupInfo)
    (f : ScannedFile) : List Line :=
  [Line.item f.readable (!(fileFailed bi f)) f.ignored (!(dd.file_resolved f)) f.change false] ++
  (match f.alt_readable with
   | some alt => if restoring then [Line.redirectedFrom alt] else [Line.redirectingTo alt]
   | none => [])

/-- The text lines emitted for one found registry key in the standard
branch of `add_game`: the key line, then one nested line per sorted value,
each unconditionally successful. -/
def regLines (dd : DuplicateDetector) (bi : BackupInfo) (e : ScannedRegistry) : List Line :=
  [Line.item e.path (!(regFailed bi e)) e.ignored (!(dd.registry_resolved e.path)) e.change false] ++
  (sortPairs e.values).map (fun kv =>
    Line.item kv.1 true kv.2.ignored (!(dd.registry_value_resolved e.path kv.1)) kv.2.change true)

/-- All text lines appended for one game by the standard branch of
`add_game`: header, sorted file lines, sorted registry lines, blank
separator. -/
def gameLines (name : String) (scan : ScanInfo) (bi : BackupInfo)
    (decision : OperationStepDecision) (dd : DuplicateDetector) : List Line :=
  [Line.header name (scan.sum_bytes (some bi)) decision
    (!(dd.game_resolved scan.game_name)) scan.overall_change] ++
  ((sortFiles scan.found_files).flatMap (fileLines scan.restoring dd bi)) ++
  ((sortRegs scan.found_registry_keys).flatMap (regLines dd bi)) ++
  [Line.blank]

/-- The state mutation of `Reporter::add_game` for a reportable scan:
appends the game lines (standard) or inserts the operative entry (JSON),
folding the game into the overall status when aggregation is active. -/
def addedState (r : Reporter) (name : String) (scan : ScanInfo) (bi : BackupInfo)
    (decision : OperationStepDecision) (dd : DuplicateDetector) : Reporter :=
  match r with
  | .Standard parts status errors =>
      Reporter.Standard (parts ++ gameLines name scan bi decision dd)
        (status.map (fun s =>
          s.add_game scan (some bi) (decide (decision = .Processed))))
        errors
  | .Json output =>
      Reporter.Json { output with
        overall := output.overall.map (fun s =>
          s.add_game scan (some bi) (decide (decision = .Processed)))
        games := insertPair name (mkApiGame scan bi decision dd) output.games }

/-- `Reporter::add_game` from `src/cli/report.rs`, continued: skip
non-reportable scans, emit via `addedState`, then trip `someGamesFailed`
and return false when any file or registry key failed. -/
def Reporter.add_game (r : Reporter) (name : String) (scan : ScanInfo)
    (bi : BackupInfo) (decision : OperationStepDecision)
    (dd : DuplicateDetector) : Bool × Reporter :=
  if !scan.can_report_game then (true, r)
  else
    let successful := !((sortFiles scan.found_files).any (fileFailed bi) ||
      (sortRegs scan.found_registry_keys).any (regFailed bi))
    let r2 := if successful then addedState r name scan bi decision dd
      else (addedState r name scan bi decision dd).trip_some_games_failed
    (successful, r2)

/-- The `ApiBackup` built from one backup descriptor in `add_backups`. -/
def mkApiBackup (b : Backup) : ApiBackup :=
  { name := b.name, when_utc := b.when_utc, os := b.os,
    comment := b.comment, locked := b.locked }

/-- `Reporter::add_backups` from `src/cli/report.rs`: no-op when the list
is empty; otherwise a text block or a `Stored` entry. -/
def Reporter.add_backups (r : Reporter) (name : String)
    (available_backups : List Backup) : Reporter :=
  match r with
  | .Standard parts status errors =>
      if available_backups.isEmpty then r
      else .Standard
        (parts ++ [Line.text (name ++ (":"))] ++
          available_backups.map (fun b =>
            Line.backupLine b.name b.when_utc b.os b.locked b.comment) ++
          [Line.blank])
        status errors
  | .Json output =>
      if available_backups.isEmpty then r
      else .Json { output with
        games := insertPair name (ApiGame.Stored (available_backups.map mkApiBackup)) output.games }

/-- `Reporter::add_found_titles` from `src/cli/report.rs`. -/
def Reporter.add_found_titles (r : Reporter) (names : List String) : Reporter :=
  match r with
  | .Standard parts status errors => .Standard (parts ++ names.map Line.text) status errors
  | .Json output =>
      .Json { output with
        games := names.foldl (fun gs n => insertPair n ApiGame.Found gs) output.games }

/-- The joined text of the buffered lines. -/
def renderParts (parts : List Line) : String :=
  String.intercalate ("\n") (parts.map Line.render)

/-- `Reporter::render` from `src/cli/report.rs`: text mode joins the lines
and, when aggregation is active, appends the summary then each queued
warning message; JSON mode serializes the document. -/
def Reporter.render (r : Reporter) (path : String) : String :=
  match r with
  | .Standard parts status errors =>
      match status with
      | some s =>
          (errors.messages).foldl (fun out m => out ++ ("\n\n") ++ m)
            (renderParts parts ++ ("\n") ++ cliSummary s path)
      | none => renderParts parts
  | .Json output => Json.render (JsonOutput.toJson output)

/-- Modelled from the spec: `TRANSLATOR.no_cloud_changes()`. -/
def noCloudChangesMessage : String := ("No cloud changes.")

/-- Modelled from the spec: the order on cloud changes — by change kind,
then by path. -/
def cloudLe (a b : CloudChange) : Prop :=
  a.change.rank < b.change.rank ∨ (a.change.rank = b.change.rank ∧ strLe a.path b.path)

instance : DecidableRel cloudLe := fun a b => by
  unfold cloudLe
  infer_instance

/-- The sort applied to cloud changes before text emission. -/
def sortCloud (l : List CloudChange) : List CloudChange :=
  List.insertionSort cloudLe l

/-- One text line of the cloud-change report: the bracketed
single-character change symbol, then the path. -/
def cloudLine (c : CloudChange) : String :=
  ("[") ++ String.singleton c.change.symbol ++ ("] ") ++ c.path

/-- The output of `report_cloud_changes`: a structured document or plain
lines. -/
inductive CloudOutput
| doc (j : Json)
| lines (ls : List String)

/-- `report_cloud_changes` from `src/cli/report.rs`: structured mode emits
a `cloud` map keyed by path; text mode emits the no-changes message for an
empty list, else one line per pair in sorted order. -/
def report_cloud_changes (changes : List CloudChange) (api : Bool) : CloudOutput :=
  if api then
    .doc (Json.obj [(("cloud"),
      Json.obj (sortPairs (changes.foldl
        (fun m c => insertPair c.path (Json.obj [(("change"), Json.str c.change.name)]) m) [])))])
  else if changes.isEmpty then .lines [noCloudChangesMessage]
  else .lines ((sortCloud changes).map cloudLine)

/-- The buffered text lines of a reporter (empty in JSON mode). -/
def Reporter.partsOf : Reporter → List Line
| .Standard parts _ _ => parts
| .Json _ => []

/-- The overall status of a reporter (in either mode). -/
def Reporter.statusOf : Reporter → Option OperationStatus
| .Standard _ status _ => status
| .Json output => output.overall

/-- The structured game map of a reporter (empty in standard mode). -/
def Reporter.gamesOf : Reporter → List (String × ApiGame)
| .Standard _ _ _ => []
| .Json output => output.games

/-- The error concerns of a reporter (defaulted when the JSON block is
absent). -/
def Reporter.errorsOf : Reporter → ApiErrors
| .Standard _ _ errors => errors
| .Json output => output.errors.getD {}

/-- The `someGamesFailed` concern of a reporter, as stored. -/
def Reporter.someGamesFailedFlag : Reporter → Option Bool
| .Standard _ _ errors => errors.some_games_failed
| .Json output =>
    match output.errors with
    | none => none
    | some e => e.some_games_failed

/-- All `duplicatedBy` names of an `ApiRegistry`, key level and value
level. -/
def ApiRegistry.dupNames (r : ApiRegistry) : List String :=
  r.duplicated_by ++ r.values.flatMap (fun kv => kv.2.duplicated_by)

/-- All `duplicatedBy` names attached anywhere in a game entry. -/
def ApiGame.dupNames : ApiGame → List String
| .Operative _ _ files registry =>
    files.flatMap (fun kv => kv.2.duplicated_by) ++
    registry.flatMap (fun kv => kv.2.dupNames)
| .Stored _ => []
| .Found => []

lemma any_insertionSort {α : Type} (r : α → α → Prop) [DecidableRel r]
    (l : List α) (p : α → Bool) :
    (List.insertionSort r l).any p = l.any p := by
  apply Bool.eq_iff_iff.mpr
  simp only [List.any_eq_true, List.mem_insertionSort]

lemma foldl_insertPair_mem {α β : Type} (key : β → String) (val : β → α) :
    ∀ (l : List β) (init : List (String × α)) (kv : String × α),
      kv ∈ l.foldl (fun m x => insertPair (key x) (val x) m) init →
      kv ∈ init ∨ ∃ x ∈ l, kv = (key x, val x)
| [], init, kv, h => Or.inl h
| x :: xs, init, kv, h => by
  rcases foldl_insertPair_mem key val xs (insertPair (key x) (val x) init) kv h with h1 | h1
  · rcases List.mem_append.mp h1 with h2 | h2
    · exact Or.inl (List.mem_of_mem_filter h2)
    · rcases List.mem_singleton.mp h2 with rfl
      exact Or.inr ⟨x, List.mem_cons_self x xs, rfl⟩
  · rcases h1 with ⟨y, hy, rfl⟩
    exact Or.inr ⟨y, List.mem_cons_of_mem x hy, rfl⟩

lemma mem_sortPairs {α : Type} {l : List (String × α)} {kv : String × α} :
    kv ∈ sortPairs l ↔ kv ∈ l := by
  unfold sortPairs
  exact List.mem_insertionSort _

lemma sortPairs_sorted {α : Type} (l : List (String × α)) :
    List.Sorted (fun a b => strLe a.1 b.1) (sortPairs l) :=
  List.sorted_insertionSort _ l

lemma sortStrings_ne_nil {l : List String} (h : ¬l.isEmpty) :
    (sortStrings l).map Json.str ≠ [] := by
  intro e
  rcases List.map_eq_nil_iff.mp e with e2
  have : l.length = 0 := by
    have := congrArg List.length e2
    simpa [sortStrings] using this
  rcases l with _ | ⟨a, l⟩
  · simp at h
  · simp at this

def wDD : DuplicateDetector :=
  { game_resolved := fun _ => true
    file_resolved := fun _ => true
    file_owners := fun _ => []
    registry_resolved := fun _ => true
    registry_owners := fun _ => []
    registry_value_resolved := fun _ _ => true
    registry_value_owners := fun _ _ => [] }

def wFile1 : ScannedFile :=
  { path := "/file1", size := 100, hash := "1", ignored := false,
    change := .Unknown, alt := none }

def wFile2 : ScannedFile :=
  { path := "/file2", size := 50, hash := "2", ignored := false,
    change := .Unknown, alt := none }

def wScan : ScanInfo :=
  { game_name := "foo", found_files := [wFile1, wFile2],
    found_registry_keys :=
      [{ path := "HKEY_CURRENT_USER/Key1", ignored := false, change := .Unknown,
         values := [(("Value1"), { ignored := false, change := .Same })] }],
    can_report_game := true, overall_change := .Same, restoring := false }

def wBi : BackupInfo :=
  { failed_files := [wFile2], failed_registry := [] }

def wBiEmpty : BackupInfo := { failed_files := [], failed_registry := [] }

def wScanSilent : ScanInfo :=
  { game_name := "quiet", found_files := [wFile1], found_registry_keys := [],
    can_report_game := false, overall_change := .Same, restoring := false }

lemma add_game_skip (r : Reporter) (name : String) (scan : ScanInfo)
    (bi : BackupInfo) (decision : OperationStepDecision) (dd : DuplicateDetector)
    (h : scan.can_report_game = false) :
    r.add_game name scan bi decision dd = (true, r) := by
  simp [Reporter.add_game, h]

/-- C3: a non-reportable scan result makes `add_game` return `true` with
zero mutation, so a subsequent render is byte-identical. -/
theorem C3_skip_contract (r : Reporter) (name : String) (scan : ScanInfo)
    (bi : BackupInfo) (decision : OperationStepDecision) (dd : DuplicateDetector)
    (h : scan.can_report_game = false) :
    r.add_game name scan bi decision dd = (true, r) ∧
    ∀ path, (r.add_game name scan bi decision dd).2.render path = r.render path := by
  have heq := add_game_skip r name scan bi decision dd h
  exact ⟨heq, fun path => by rw [heq]⟩

theorem C3_skip_contract_witness :
    wScanSilent.can_report_game = false ∧
    Reporter.json.add_game ("quiet") wScanSilent wBiEmpty .Processed wDD =
      (true, Reporter.json) :=
  ⟨rfl, (C3_skip_contract Reporter.json ("quiet") wScanSilent wBiEmpty .Processed wDD rfl).1⟩

/-- C5: for every file mapped into the structured output, the alternate
path surfaces as `originalPath` exactly when restoring and as
`redirectedPath` exactly when backing up, never both; a file without an
alternate path populates neither. -/
theorem C5_direction_exclusivity (restoring : Bool) (gname : String)
    (dd : DuplicateDetector) (bi : BackupInfo) (f : ScannedFile) :
    (mkApiFile restoring gname dd bi f).original_path =
      (if restoring then f.alt_readable else none) ∧
    (mkApiFile restoring gname dd bi f).redirected_path =
      (if restoring then none else f.alt_readable) ∧
    ((mkApiFile restoring gname dd bi f).original_path = none ∨
     (mkApiFile restoring gname dd bi f).redirected_path = none) := by
  refine ⟨rfl, rfl, ?_⟩
  cases restoring
  · exact Or.inl rfl
  · exact Or.inr rfl

/-- C9: the three public trip operations are idempotent and touch nothing
but the presence of their own concern. -/
theorem C9_trip_idempotent (r : Reporter) (names : List String) :
    ((r.trip_unknown_games names).trip_unknown_games names = r.trip_unknown_games names ∧
      (r.trip_unknown_games names).partsOf = r.partsOf ∧
      (r.trip_unknown_games names).statusOf = r.statusOf ∧
      (r.trip_unknown_games names).gamesOf = r.gamesOf ∧
      (r.trip_unknown_games names).errorsOf = { r.errorsOf with unknown_games := some names }) ∧
    (r.trip_cloud_conflict.trip_cloud_conflict = r.trip_cloud_conflict ∧
      r.trip_cloud_conflict.partsOf = r.partsOf ∧
      r.trip_cloud_conflict.statusOf = r.statusOf ∧
      r.trip_cloud_conflict.gamesOf = r.gamesOf ∧
      r.trip_cloud_conflict.errorsOf = { r.errorsOf with cloud_conflict := some () }) ∧
    (r.trip_cloud_sync_failed.trip_cloud_sync_failed = r.trip_cloud_sync_failed ∧
      r.trip_cloud_sync_failed.partsOf = r.partsOf ∧
      r.trip_cloud_sync_failed.statusOf = r.statusOf ∧
      r.trip_cloud_sync_failed.gamesOf = r.gamesOf ∧
      r.trip_cloud_sync_failed.errorsOf = { r.errorsOf with cloud_sync_failed := some () }) := by
  rcases r with ⟨parts, status, errors⟩ | ⟨output⟩
  · refine ⟨⟨rfl, rfl, rfl, rfl, rfl⟩, ⟨rfl, rfl, rfl, rfl, rfl⟩, rfl, rfl, rfl, rfl, rfl⟩
  · rcases output with ⟨errors, overall, games⟩
    rcases errors with _ | ⟨e⟩
    · refine ⟨⟨rfl, rfl, rfl, rfl, rfl⟩, ⟨rfl, rfl, rfl, rfl, rfl⟩, rfl, rfl, rfl, rfl, rfl⟩
    · refine ⟨⟨rfl, rfl, rfl, rfl, rfl⟩, ⟨rfl, rfl, rfl, rfl, rfl⟩, rfl, rfl, rfl, rfl, rfl⟩

/-- The serialized document of a reporter (JSON mode only). -/
def docOf : Reporter → Option Json
| .Standard _ _ _ => none
| .Json output => some (JsonOutput.toJson output)

/-- C7: the text-mode warning messages are exactly those of the
currently-set cloud concerns, cloud-conflict first then
cloud-sync-failure, appended after the summary; `someGamesFailed` and
`unknownGames` never produce a message. -/
theorem C7_warning_messages (e : ApiErrors) (x : Option Bool) (y : Option (List String)) :
    ApiErrors.messages { e with some_games_failed := x, unknown_games := y } = e.messages ∧
    (e.cloud_conflict.isSome = true → e.cloud_sync_failed.isSome = true →
      e.messages = [cloudConflictWarning, cloudSyncFailedWarning]) ∧
    (e.cloud_conflict.isSome = true → e.cloud_sync_failed.isSome = false →
      e.messages = [cloudConflictWarning]) ∧
    (e.cloud_conflict.isSome = false → e.cloud_sync_failed.isSome = true →
      e.messages = [cloudSyncFailedWarning]) ∧
    (e.cloud_conflict.isSome = false → e.cloud_sync_failed.isSome = false →
      e.messages = []) ∧
    (∀ parts st path, Reporter.render (.Standard parts (some st) e) path =
      e.messages.foldl (fun out m => out ++ ("\n\n") ++ m)
        (renderParts parts ++ ("\n") ++ cliSummary st path)) := by
  refine ⟨rfl, ?_, ?_, ?_, ?_, fun parts st path => rfl⟩ <;>
    · intro h1 h2
      simp [ApiErrors.messages, h1, h2]

theorem C7_warning_messages_witness :
    ApiErrors.messages
      { some_games_failed := some true, unknown_games := some [("g")],
        cloud_conflict := some (), cloud_sync_failed := some () } =
      [cloudConflictWarning, cloudSyncFailedWarning] :=
  (C7_warning_messages
    { some_games_failed := some true, unknown_games := some [("g")],
      cloud_conflict := some (), cloud_sync_failed := some () }
    none none).2.1 rfl rfl

/-- C8: a fresh reporter with no `add_game` calls and aggregation active
renders an explicit all-zero summary (text) or an all-zero, present
`overall` block (structured), never an omitted block. -/
theorem C8_empty_run (path : String) :
    Reporter.standard.render path = ("\n") ++ cliSummary ({}) path ∧
    Reporter.standard.statusOf = some ({}) ∧
    Reporter.json.statusOf = some ({}) ∧
    (docOf Reporter.json).map (Json.topLookup ("overall")) =
      some (some (OperationStatus.toJson ({}))) ∧
    ({} : OperationStatus) =
      { total_games := 0, total_bytes := 0, processed_games := 0,
        processed_bytes := 0, changed_new := 0, changed_different := 0,
        changed_same := 0 } :=
  ⟨rfl, rfl, rfl, rfl, rfl⟩

lemma add_game_eq (r : Reporter) (name : String) (scan : ScanInfo)
    (bi : BackupInfo) (decision : OperationStepDecision) (dd : DuplicateDetector)
    (h : scan.can_report_game = true) :
    r.add_game name scan bi decision dd =
      (!(scan.found_files.any (fileFailed bi) ||
          scan.found_registry_keys.any (regFailed bi)),
        if (scan.found_files.any (fileFailed bi) ||
            scan.found_registry_keys.any (regFailed bi)) then
          (addedState r name scan bi decision dd).trip_some_games_failed
        else addedState r name scan bi decision dd) := by
  unfold Reporter.add_game
  rw [h]
  have h1 : (sortFiles scan.found_files).any (fileFailed bi) =
      scan.found_files.any (fileFailed bi) := any_insertionSort _ _ _
  have h2 : (sortRegs scan.found_registry_keys).any (regFailed bi) =
      scan.found_registry_keys.any (regFailed bi) := any_insertionSort _ _ _
  rw [h1, h2]
  cases hb : (scan.found_files.any (fileFailed bi) ||
      scan.found_registry_keys.any (regFailed bi)) <;> simp

lemma someGamesFailedFlag_trip (r : Reporter) :
    r.trip_some_games_failed.someGamesFailedFlag = some true := by
  rcases r with ⟨parts, status, errors⟩ | ⟨⟨er, ov, gs⟩⟩
  · rfl
  · rcases er with _ | e <;> rfl

lemma someGamesFailedFlag_addedState (r : Reporter) (name : String)
    (scan : ScanInfo) (bi : BackupInfo) (decision : OperationStepDecision)
    (dd : DuplicateDetector) :
    (addedState r name scan bi decision dd).someGamesFailedFlag =
      r.someGamesFailedFlag := by
  rcases r with ⟨parts, status, errors⟩ | ⟨⟨er, ov, gs⟩⟩
  · rfl
  · rcases er with _ | e <;> rfl

/-- C2: for a reportable scan, `add_game` returns false exactly when some
found file or registry key is in the failed sets; exactly then it sets
`someGamesFailed`, and otherwise it leaves the concern untouched. -/
theorem C2_failure_signal (r : Reporter) (name : String) (scan : ScanInfo)
    (bi : BackupInfo) (decision : OperationStepDecision) (dd : DuplicateDetector)
    (h : scan.can_report_game = true) :
    ((r.add_game name scan bi decision dd).1 = false ↔
      (∃ f ∈ scan.found_files, f ∈ bi.failed_files) ∨
      (∃ e ∈ scan.found_registry_keys, e.path ∈ bi.failed_registry)) ∧
    ((r.add_game name scan bi decision dd).1 = false →
      (r.add_game name scan bi decision dd).2.someGamesFailedFlag = some true) ∧
    ((r.add_game name scan bi decision dd).1 = true →
      (r.add_game name scan bi decision dd).2.someGamesFailedFlag =
        r.someGamesFailedFlag) := by
  rw [add_game_eq r name scan bi decision dd h]
  cases hb : (scan.found_files.any (fileFailed bi) ||
      scan.found_registry_keys.any (regFailed bi))
  · rcases Bool.or_eq_false_iff.mp hb with ⟨hf, hr⟩
    refine ⟨?_, ?_, ?_⟩
    · simp only [hb]
      constructor
      · intro hcontra
        simp at hcontra
      · rintro (⟨f, hfm, hff⟩ | ⟨e, hem, hef⟩)
        · have := List.any_eq_false.mp hf f hfm
          simp [fileFailed, hff] at this
        · have := List.any_eq_false.mp hr e hem
          simp [regFailed, hef] at this
    · intro hcontra
      simp [hb] at hcontra
    · intro _
      simp only [hb, if_false, Bool.false_eq_true]
      exact someGamesFailedFlag_addedState r name scan bi decision dd
  · refine ⟨?_, ?_, ?_⟩
    · simp only [hb]
      constructor
      · intro _
        rcases Bool.or_eq_true_iff.mp hb with hf | hr
        · rcases List.any_eq_true.mp hf with ⟨f, hfm, hff⟩
          exact Or.inl ⟨f, hfm, of_decide_eq_true hff⟩
        · rcases List.any_eq_true.mp hr with ⟨e, hem, hef⟩
          exact Or.inr ⟨e, hem, of_decide_eq_true hef⟩
      · intro _
        rfl
    · intro _
      simp only [hb, if_true]
      exact someGamesFailedFlag_trip _
    · intro hcontra
      simp [hb] at hcontra

theorem C2_failure_signal_witness :
    wScan.can_report_game = true ∧
    (Reporter.json.add_game ("foo") wScan wBi .Processed wDD).1 = false ∧
    (Reporter.json.add_game ("foo") wScan wBi .Processed wDD).2.someGamesFailedFlag =
      some true := by
  have h := C2_failure_signal Reporter.json ("foo") wScan wBi .Processed wDD rfl
  have h1 : (Reporter.json.add_game ("foo") wScan wBi .Processed wDD).1 = false :=
    h.1.mpr (Or.inl ⟨wFile2, by decide, by decide⟩)
  exact ⟨rfl, h1, h.2.1 h1⟩

lemma gamesOf_set_errors (r : Reporter) (f : ApiErrors → ApiErrors) :
    (r.set_errors f).gamesOf = r.gamesOf := by
  rcases r with ⟨parts, status, errors⟩ | ⟨⟨er, ov, gs⟩⟩
  · rfl
  · rcases er with _ | e <;> rfl

lemma gamesOf_trip (r : Reporter) :
    r.trip_some_games_failed.gamesOf = r.gamesOf :=
  gamesOf_set_errors r _

lemma lookup_insertPair {α : Type} (k : String) (v : α) (l : List (String × α)) :
    (insertPair k v l).lookup k = some v := by
  unfold insertPair
  induction l with
  | nil => simp [List.lookup]
  | cons a l ih =>
    rw [List.filter_cons]
    by_cases hk : a.1 = k
    · have hd : decide (a.1 ≠ k) = false := by simp [hk]
      rw [hd]
      simp only [Bool.false_eq_true, if_false]
      exact ih
    · have hd : decide (a.1 ≠ k) = true := by simp [hk]
      have hbeq : (k == a.1) = false := beq_eq_false_iff_ne.mpr (fun e => hk e.symm)
      rw [hd]
      simp only [if_true, List.cons_append, List.lookup, hbeq]
      exact ih

lemma mkApiFile_dup_ne (restoring : Bool) (gname : String) (dd : DuplicateDetector)
    (bi : BackupInfo) (f : ScannedFile) {g : String}
    (h : g ∈ (mkApiFile restoring gname dd bi f).duplicated_by) : g ≠ gname := by
  unfold mkApiFile at h
  dsimp at h
  split at h
  · have := (List.mem_filter.mp (List.mem_dedup.mp h)).2
    exact of_decide_eq_true this
  · simp at h

lemma mkApiRegistryValue_dup_ne (gname : String) (dd : DuplicateDetector)
    (regPath valueName : String) (v : ScannedRegistryValue) {g : String}
    (h : g ∈ (mkApiRegistryValue gname dd regPath valueName v).duplicated_by) :
    g ≠ gname := by
  unfold mkApiRegistryValue at h
  dsimp at h
  split at h
  · have := (List.mem_filter.mp (List.mem_dedup.mp h)).2
    exact of_decide_eq_true this
  · simp at h

lemma mkApiRegistry_dup_ne (gname : String) (dd : DuplicateDetector)
    (bi : BackupInfo) (e : ScannedRegistry) {g : String}
    (h : g ∈ (mkApiRegistry gname dd bi e).dupNames) : g ≠ gname := by
  unfold ApiRegistry.dupNames at h
  rcases List.mem_append.mp h with h1 | h1
  · unfold mkApiRegistry at h1
    dsimp at h1
    split at h1
    · have := (List.mem_filter.mp (List.mem_dedup.mp h1)).2
      exact of_decide_eq_true this
    · simp at h1
  · rcases List.mem_flatMap.mp h1 with ⟨kv, hkv, hmem⟩
    have hkv2 : kv ∈ (mkApiRegistry gname dd bi e).values := hkv
    unfold mkApiRegistry at hkv2
    dsimp at hkv2
    rcases foldl_insertPair_mem (fun kv => kv.1)
        (fun kv => mkApiRegistryValue gname dd e.path kv.1 kv.2) e.values [] kv hkv2 with
      h2 | ⟨x, _, rfl⟩
    · simp at h2
    · exact mkApiRegistryValue_dup_ne gname dd e.path x.1 x.2 hmem

lemma mkApiGame_dup_ne (scan : ScanInfo) (bi : BackupInfo)
    (decision : OperationStepDecision) (dd : DuplicateDetector) {g : String}
    (h : g ∈ (mkApiGame scan bi decision dd).dupNames) : g ≠ scan.game_name := by
  unfold mkApiGame ApiGame.dupNames at h
  dsimp at h
  rcases List.mem_append.mp h with h1 | h1
  · rcases List.mem_flatMap.mp h1 with ⟨kv, hkv, hmem⟩
    rcases foldl_insertPair_mem (fun f => f.readable)
        (fun f => mkApiFile scan.restoring scan.game_name dd bi f)
        (sortFiles scan.found_files) [] kv hkv with h2 | ⟨x, _, rfl⟩
    · simp at h2
    · exact mkApiFile_dup_ne scan.restoring scan.game_name dd bi x hmem
  · rcases List.mem_flatMap.mp h1 with ⟨kv, hkv, hmem⟩
    rcases foldl_insertPair_mem (fun e => e.path)
        (fun e => mkApiRegistry scan.game_name dd bi e)
        (sortRegs scan.found_registry_keys) [] kv hkv with h2 | ⟨x, _, rfl⟩
    · simp at h2
    · exact mkApiRegistry_dup_ne scan.game_name dd bi x hmem

def c4DD : DuplicateDetector :=
  { wDD with file_resolved := fun _ => false, file_owners := fun _ => [("A")] }

def c4Scan : ScanInfo :=
  { game_name := "B", found_files := [wFile1], found_registry_keys := [],
    can_report_game := true, overall_change := .Same, restoring := false }

/-- C4, counterexample: `add_game` removes only the scan result's own
`game_name` from the duplicate owners, not the key the entry is stored
under; adding a scan for game "B" under the report key "A", with the
duplicate index attributing the file to "A", yields an entry keyed "A"
whose `duplicatedBy` contains "A". -/
theorem C4_counterexample :
    ((Reporter.json.add_game ("A") c4Scan wBiEmpty .Processed c4DD).2.gamesOf.lookup ("A")).map
      (fun g => decide (("A") ∈ g.dupNames)) = some true := by decide

/-- C4, amended: whenever the entry is keyed by the scan result's own game
name (as every caller does), no `duplicatedBy` set anywhere in the entry
contains that key; in general the excluded name is the scan's
`game_name`. -/
theorem C4_dup_self_exclusion (name : String) (scan : ScanInfo)
    (bi : BackupInfo) (decision : OperationStepDecision) (dd : DuplicateDetector)
    (h : name = scan.game_name) :
    name ∉ (mkApiGame scan bi decision dd).dupNames ∧
    ∀ g, (Reporter.json.add_game name scan bi decision dd).2.gamesOf.lookup name = some g →
      name ∉ g.dupNames := by
  have hmain : name ∉ (mkApiGame scan bi decision dd).dupNames := by
    intro hmem
    exact absurd h (mkApiGame_dup_ne scan bi decision dd hmem)
  refine ⟨hmain, ?_⟩
  intro g hg
  cases hrep : scan.can_report_game
  · have hskip := add_game_skip Reporter.json name scan bi decision dd hrep
    rw [hskip] at hg
    exact Option.noConfusion hg
  · rw [add_game_eq Reporter.json name scan bi decision dd hrep] at hg
    have hgames : (if (scan.found_files.any (fileFailed bi) ||
          scan.found_registry_keys.any (regFailed bi)) = true then
        (addedState Reporter.json name scan bi decision dd).trip_some_games_failed
        else addedState Reporter.json name scan bi decision dd).gamesOf =
        insertPair name (mkApiGame scan bi decision dd) [] := by
      cases hb : (scan.found_files.any (fileFailed bi) ||
          scan.found_registry_keys.any (regFailed bi))
      · rw [if_neg (by simp)]
        rfl
      · rw [if_pos rfl, gamesOf_trip]
        rfl
    rw [hgames, lookup_insertPair] at hg
    cases hg
    exact hmain

theorem C4_dup_self_exclusion_witness :
    (("foo") = wScan.game_name) ∧
    ("foo") ∉ (mkApiGame wScan wBi .Processed wDD).dupNames :=
  ⟨rfl, (C4_dup_self_exclusion ("foo") wScan wBi .Processed wDD rfl).1⟩

instance : IsTotal CloudChange cloudLe :=
  ⟨fun a b => by
    unfold cloudLe
    rcases Nat.lt_trichotomy a.change.rank b.change.rank with h | h | h
    · exact Or.inl (Or.inl h)
    · rcases strLe_total a.path b.path with hp | hp
      · exact Or.inl (Or.inr ⟨h, hp⟩)
      · exact Or.inr (Or.inr ⟨h.symm, hp⟩)
    · exact Or.inr (Or.inl h)⟩

instance : IsTrans CloudChange cloudLe :=
  ⟨fun a b c h1 h2 => by
    unfold cloudLe at h1 h2 ⊢
    rcases h1 with h1 | ⟨h1e, h1p⟩
    · rcases h2 with h2 | ⟨h2e, h2p⟩
      · exact Or.inl (h1.trans h2)
      · exact Or.inl (h2e ▸ h1)
    · rcases h2 with h2 | ⟨h2e, h2p⟩
      · exact Or.inl (h1e ▸ h2)
      · exact Or.inr ⟨h1e.trans h2e, strLe_trans h1p h2p⟩⟩

/-- C6: in text mode the cloud-change reporter emits one line per (path,
change) pair — a permutation of the input rendered through the
symbol-prefixed line, in (change, path) order — and a single no-changes
message for the empty list. -/
theorem C6_cloud_changes_text (changes : List CloudChange) :
    (sortCloud changes).Perm changes ∧
    List.Sorted cloudLe (sortCloud changes) ∧
    report_cloud_changes [] false = .lines [noCloudChangesMessage] ∧
    (changes ≠ [] →
      report_cloud_changes changes false = .lines ((sortCloud changes).map cloudLine) ∧
      ((sortCloud changes).map cloudLine).length = changes.length) := by
  refine ⟨List.perm_insertionSort cloudLe changes,
    List.sorted_insertionSort cloudLe changes, rfl, ?_⟩
  intro h
  have hne : changes.isEmpty = false := by
    rcases changes with _ | ⟨a, l⟩
    · exact absurd rfl h
    · rfl
  constructor
  · simp [report_cloud_changes, hne]
  · rw [List.length_map]
    exact List.length_insertionSort _ _

def c6W : List CloudChange :=
  [{ path := "b", change := .Same }, { path := "a", change := .New }]

theorem C6_cloud_changes_text_witness :
    c6W ≠ [] ∧
    report_cloud_changes c6W false = .lines ((sortCloud c6W).map cloudLine) :=
  ⟨by decide, ((C6_cloud_changes_text c6W).2.2.2 (by decide)).1⟩

/-- A scan with every registry key's value map replaced (files and all
other fields untouched). -/
def withValues (f : ScannedRegistry → List (String × ScannedRegistryValue))
    (scan : ScanInfo) : ScanInfo :=
  { scan with found_registry_keys :=
      scan.found_registry_keys.map (fun e => { e with values := f e }) }

lemma partsOf_set_errors (r : Reporter) (f : ApiErrors → ApiErrors) :
    (r.set_errors f).partsOf = r.partsOf := by
  rcases r with ⟨parts, status, errors⟩ | ⟨⟨er, ov, gs⟩⟩
  · rfl
  · rcases er with _ | e <;> rfl

lemma partsOf_trip (r : Reporter) :
    r.trip_some_games_failed.partsOf = r.partsOf :=
  partsOf_set_errors r _

lemma fileLines_no_nested_failed (restoring : Bool) (dd : DuplicateDetector)
    (bi : BackupInfo) (f : ScannedFile) (lbl : String) (ig dup : Bool)
    (ch : ScanChange) :
    Line.item lbl false ig dup ch true ∉ fileLines restoring dd bi f := by
  intro h
  unfold fileLines at h
  rcases List.mem_append.mp h with h1 | h1
  · simp at h1
  · rcases halt : f.alt_readable with _ | a <;> rw [halt] at h1
    · simp at h1
    · cases restoring <;> simp at h1

lemma regLines_no_nested_failed (dd : DuplicateDetector) (bi : BackupInfo)
    (e : ScannedRegistry) (lbl : String) (ig dup : Bool) (ch : ScanChange) :
    Line.item lbl false ig dup ch true ∉ regLines dd bi e := by
  intro h
  unfold regLines at h
  rcases List.mem_append.mp h with h1 | h1
  · simp at h1
  · rcases List.mem_map.mp h1 with ⟨kv, _, heq⟩
    simp at heq

lemma gameLines_no_nested_failed (name : String) (scan : ScanInfo)
    (bi : BackupInfo) (decision : OperationStepDecision) (dd : DuplicateDetector)
    (lbl : String) (ig dup : Bool) (ch : ScanChange) :
    Line.item lbl false ig dup ch true ∉ gameLines name scan bi decision dd := by
  intro h
  unfold gameLines at h
  rcases List.mem_append.mp h with h1 | h1
  · rcases List.mem_append.mp h1 with h2 | h2
    · rcases List.mem_append.mp h2 with h3 | h3
      · simp at h3
      · rcases List.mem_flatMap.mp h3 with ⟨x, _, hx⟩
        exact fileLines_no_nested_failed scan.restoring dd bi x lbl ig dup ch hx
    · rcases List.mem_flatMap.mp h2 with ⟨x, _, hx⟩
      exact regLines_no_nested_failed dd bi x lbl ig dup ch hx
  · simp at h1

lemma partsOf_add_game (r : Reporter) (name : String) (scan : ScanInfo)
    (bi : BackupInfo) (decision : OperationStepDecision) (dd : DuplicateDetector)
    (h : scan.can_report_game = true) :
    ∃ extra, (r.add_game name scan bi decision dd).2.partsOf = r.partsOf ++ extra ∧
      ∀ lbl ig dup ch, Line.item lbl false ig dup ch true ∉ extra := by
  rw [add_game_eq r name scan bi decision dd h]
  have hadded : (addedState r name scan bi decision dd).partsOf =
      r.partsOf ++ (match r with
        | .Standard _ _ _ => gameLines name scan bi decision dd
        | .Json _ => []) := by
    rcases r with ⟨parts, status, errors⟩ | ⟨output⟩
    · rfl
    · rfl
  have hextra : ∀ lbl ig dup ch, Line.item lbl false ig dup ch true ∉
      (match r with
        | .Standard _ _ _ => gameLines name scan bi decision dd
        | .Json _ => []) := by
    rcases r with ⟨parts, status, errors⟩ | ⟨output⟩
    · exact fun lbl ig dup ch => gameLines_no_nested_failed name scan bi decision dd lbl ig dup ch
    · intro lbl ig dup ch hmem
      simp at hmem
  refine ⟨_, ?_, hextra⟩
  cases hb : (scan.found_files.any (fileFailed bi) ||
      scan.found_registry_keys.any (regFailed bi))
  · rw [if_neg (by simp)]
    exact hadded
  · rw [if_pos rfl, partsOf_trip]
    exact hadded

lemma add_game_flag (r : Reporter) (name : String) (scan : ScanInfo)
    (bi : BackupInfo) (decision : OperationStepDecision) (dd : DuplicateDetector)
    (h : scan.can_report_game = true) :
    (r.add_game name scan bi decision dd).2.someGamesFailedFlag =
      (if (scan.found_files.any (fileFailed bi) ||
          scan.found_registry_keys.any (regFailed bi)) then some true
        else r.someGamesFailedFlag) := by
  rw [add_game_eq r name scan bi decision dd h]
  cases hb : (scan.found_files.any (fileFailed bi) ||
      scan.found_registry_keys.any (regFailed bi))
  · rw [if_neg (by simp), if_neg (by simp)]
    exact someGamesFailedFlag_addedState r name scan bi decision dd
  · rw [if_pos rfl, if_pos rfl]
    exact someGamesFailedFlag_trip _

lemma withValues_any_files (f : ScannedRegistry → List (String × ScannedRegistryValue))
    (scan : ScanInfo) (bi : BackupInfo) :
    (withValues f scan).found_files.any (fileFailed bi) =
      scan.found_files.any (fileFailed bi) := rfl

lemma withValues_any_regs (f : ScannedRegistry → List (String × ScannedRegistryValue))
    (scan : ScanInfo) (bi : BackupInfo) :
    (withValues f scan).found_registry_keys.any (regFailed bi) =
      scan.found_registry_keys.any (regFailed bi) := by
  unfold withValues
  dsimp only
  rw [List.any_map]
  rfl

/-- C10: `add_game`'s success result and the `someGamesFailed` concern are
independent of registry values; a text-mode value line is never marked
failed; the structured registry-value shape carries no `failed` field. -/
theorem C10_registry_values_no_failure (r : Reporter) (name : String)
    (scan : ScanInfo) (bi : BackupInfo) (decision : OperationStepDecision)
    (dd : DuplicateDetector)
    (f : ScannedRegistry → List (String × ScannedRegistryValue)) :
    (r.add_game name (withValues f scan) bi decision dd).1 =
      (r.add_game name scan bi decision dd).1 ∧
    (r.add_game name (withValues f scan) bi decision dd).2.someGamesFailedFlag =
      (r.add_game name scan bi decision dd).2.someGamesFailedFlag ∧
    (∀ v : ApiRegistryValue, ("failed") ∉ (ApiRegistryValue.toJson v).topKeys) ∧
    (∀ lbl ig dup ch, Line.item lbl false ig dup ch true ∈
        (r.add_game name scan bi decision dd).2.partsOf →
      Line.item lbl false ig dup ch true ∈ r.partsOf) := by
  have hrep2 : (withValues f scan).can_report_game = scan.can_report_game := rfl
  refine ⟨?_, ?_, ?_, ?_⟩
  · cases hrep : scan.can_report_game
    · have hs1 := add_game_skip r name (withValues f scan) bi decision dd
        (hrep2.trans hrep)
      have hs2 := add_game_skip r name scan bi decision dd hrep
      rw [hs1, hs2]
    · rw [add_game_eq r name scan bi decision dd hrep,
        add_game_eq r name (withValues f scan) bi decision dd (hrep2.trans hrep)]
      dsimp only
      rw [withValues_any_files, withValues_any_regs]
  · cases hrep : scan.can_report_game
    · have hs1 := add_game_skip r name (withValues f scan) bi decision dd
        (hrep2.trans hrep)
      have hs2 := add_game_skip r name scan bi decision dd hrep
      rw [hs1, hs2]
    · rw [add_game_flag r name scan bi decision dd hrep,
        add_game_flag r name (withValues f scan) bi decision dd (hrep2.trans hrep),
        withValues_any_files, withValues_any_regs]
  · intro v hmem
    unfold ApiRegistryValue.toJson Json.topKeys at hmem
    rcases List.mem_map.mp hmem with ⟨kv, hkv, hfst⟩
    have hig : (("ignored") : String) = ("failed") → False := by decide
    have hch : (("change") : String) = ("failed") → False := by decide
    have hdu : (("duplicatedBy") : String) = ("failed") → False := by decide
    rcases List.mem_append.mp hkv with h1 | h1
    · rcases List.mem_append.mp h1 with h2 | h2
      · split at h2
        · rcases List.mem_singleton.mp h2 with rfl
          exact hig hfst
        · simp at h2
      · rcases List.mem_singleton.mp h2 with rfl
        exact hch hfst
    · split at h1
      · simp at h1
      · rcases List.mem_singleton.mp h1 with rfl
        exact hdu hfst
  · intro lbl ig dup ch hmem
    cases hrep : scan.can_report_game
    · have hs := add_game_skip r name scan bi decision dd hrep
      rw [hs] at hmem
      exact hmem
    · rcases partsOf_add_game r name scan bi decision dd hrep with ⟨extra, heq, hnot⟩
      rw [heq] at hmem
      rcases List.mem_append.mp hmem with h1 | h1
      · exact h1
      · exact absurd h1 (hnot lbl ig dup ch)

def c10R : Reporter :=
  .Standard [Line.item ("x") false false false .New true] (some {}) {}

theorem C10_registry_values_no_failure_witness :
    Line.item ("x") false false false .New true ∈
      (c10R.add_game ("foo") wScan wBi .Processed wDD).2.partsOf ∧
    Line.item ("x") false false false .New true ∈ c10R.partsOf := by
  have hpre : Line.item ("x") false false false .New true ∈
      (c10R.add_game ("foo") wScan wBi .Processed wDD).2.partsOf := by decide
  exact ⟨hpre, (C10_registry_values_no_failure c10R ("foo") wScan wBi .Processed wDD
    (fun _ => [])).2.2.2 ("x") false false .New hpre⟩

lemma isEmptyArr_of_ne_nil {xs : List Json} (h : xs ≠ []) :
    Json.isEmptyArr (Json.arr xs) = false := by
  rcases xs with _ | ⟨a, xs⟩
  · exact absurd rfl h
  · rfl

lemma badPair_shape (k : String) (v : Json) (h1 : Json.isFalse v = false)
    (h2 : Json.isEmptyArr v = false) : Json.badPair k v = false := by
  unfold Json.badPair
  rw [h1, h2]
  simp

lemma badPair_dup_of_ne_nil (v : Json) (h : Json.isEmptyArr v = false) :
    Json.badPair ("duplicatedBy") v = false := by
  unfold Json.badPair
  rw [h]
  rfl

lemma clean_strArr (l : List String) : Json.Clean (Json.arr (l.map Json.str)) := by
  refine Json.Clean.arr _ ?_
  intro x hx
  rcases List.mem_map.mp hx with ⟨s, _, rfl⟩
  exact Json.Clean.str s

/-- The conjunction needed for each field of a clean object. -/
def FieldOk (kv : String × Json) : Prop :=
  Json.badPair kv.1 kv.2 = false ∧ Json.Clean kv.2

lemma clean_obj_of_fieldOk {fs : List (String × Json)} (h : ∀ kv ∈ fs, FieldOk kv) :
    Json.Clean (Json.obj fs) :=
  Json.Clean.obj fs (fun kv hkv => (h kv hkv).1) (fun kv hkv => (h kv hkv).2)

lemma fieldOk_dupSegment (l : List String) :
    ∀ kv ∈ (if l.isEmpty then ([] : List (String × Json))
      else [(("duplicatedBy"), Json.arr ((sortStrings l).map Json.str))]), FieldOk kv := by
  split
  · intro kv hkv
    simp at hkv
  · rename_i hne
    intro kv hkv
    rcases List.mem_singleton.mp hkv with rfl
    refine ⟨badPair_dup_of_ne_nil _ (isEmptyArr_of_ne_nil (sortStrings_ne_nil hne)), ?_⟩
    exact clean_strArr _

lemma apiErrors_clean (e : ApiErrors) : Json.Clean (ApiErrors.toJson e) := by
  unfold ApiErrors.toJson
  apply clean_obj_of_fieldOk
  refine List.forall_mem_append.mpr ⟨List.forall_mem_append.mpr
    ⟨List.forall_mem_append.mpr ⟨?_, ?_⟩, ?_⟩, ?_⟩
  · rcases e.some_games_failed with _ | b
    · intro kv hkv
      simp at hkv
    · intro kv hkv
      rcases List.mem_singleton.mp hkv with rfl
      exact ⟨rfl, Json.Clean.bool b⟩
  · rcases e.unknown_games with _ | gs
    · intro kv hkv
      simp at hkv
    · intro kv hkv
      rcases List.mem_singleton.mp hkv with rfl
      exact ⟨rfl, clean_strArr gs⟩
  · rcases e.cloud_conflict with _ | u
    · intro kv hkv
      simp at hkv
    · intro kv hkv
      rcases List.mem_singleton.mp hkv with rfl
      exact ⟨rfl, clean_obj_of_fieldOk (by intro kv hkv; simp at hkv)⟩
  · rcases e.cloud_sync_failed with _ | u
    · intro kv hkv
      simp at hkv
    · intro kv hkv
      rcases List.mem_singleton.mp hkv with rfl
      exact ⟨rfl, clean_obj_of_fieldOk (by intro kv hkv; simp at hkv)⟩

lemma apiFile_clean (f : ApiFile) : Json.Clean (ApiFile.toJson f) := by
  unfold ApiFile.toJson
  apply clean_obj_of_fieldOk
  refine List.forall_mem_append.mpr ⟨List.forall_mem_append.mpr
    ⟨List.forall_mem_append.mpr ⟨List.forall_mem_append.mpr
      ⟨List.forall_mem_append.mpr ⟨?_, ?_⟩, ?_⟩, ?_⟩, ?_⟩, fieldOk_dupSegment _⟩
  · split
    · rename_i hc
      intro kv hkv
      rcases List.mem_singleton.mp hkv with rfl
      rw [hc]
      exact ⟨rfl, Json.Clean.bool true⟩
    · intro kv hkv
      simp at hkv
  · split
    · rename_i hc
      intro kv hkv
      rcases List.mem_singleton.mp hkv with rfl
      rw [hc]
      exact ⟨rfl, Json.Clean.bool true⟩
    · intro kv hkv
      simp at hkv
  · intro kv hkv
    rcases List.mem_cons.mp hkv with rfl | hkv2
    · exact ⟨rfl, Json.Clean.str _⟩
    · rcases List.mem_singleton.mp hkv2 with rfl
      exact ⟨rfl, Json.Clean.nat _⟩
  · rcases f.original_path with _ | p
    · intro kv hkv
      simp at hkv
    · intro kv hkv
      rcases List.mem_singleton.mp hkv with rfl
      exact ⟨rfl, Json.Clean.str p⟩
  · rcases f.redirected_path with _ | p
    · intro kv hkv
      simp at hkv
    · intro kv hkv
      rcases List.mem_singleton.mp hkv with rfl
      exact ⟨rfl, Json.Clean.str p⟩

lemma apiRegistryValue_clean (v : ApiRegistryValue) :
    Json.Clean (ApiRegistryValue.toJson v) := by
  unfold ApiRegistryValue.toJson
  apply clean_obj_of_fieldOk
  refine List.forall_mem_append.mpr ⟨List.forall_mem_append.mpr ⟨?_, ?_⟩,
    fieldOk_dupSegment _⟩
  · split
    · rename_i hc
      intro kv hkv
      rcases List.mem_singleton.mp hkv with rfl
      rw [hc]
      exact ⟨rfl, Json.Clean.bool true⟩
    · intro kv hkv
      simp at hkv
  · intro kv hkv
    rcases List.mem_singleton.mp hkv with rfl
    exact ⟨rfl, Json.Clean.str _⟩

lemma fieldOk_sortedMap {α : Type} (toJ : α → Json) (l : List (String × α))
    (hbp : ∀ k a, Json.badPair k (toJ a) = false)
    (hcl : ∀ a, Json.Clean (toJ a)) :
    ∀ kv ∈ (sortPairs l).map (fun kv => (kv.1, toJ kv.2)), FieldOk kv := by
  intro kv hkv
  rcases List.mem_map.mp hkv with ⟨kv0, _, rfl⟩
  exact ⟨hbp kv0.1 kv0.2, hcl kv0.2⟩

lemma apiRegistry_clean (r : ApiRegistry) : Json.Clean (ApiRegistry.toJson r) := by
  unfold ApiRegistry.toJson
  apply clean_obj_of_fieldOk
  refine List.forall_mem_append.mpr ⟨List.forall_mem_append.mpr
    ⟨List.forall_mem_append.mpr ⟨List.forall_mem_append.mpr ⟨?_, ?_⟩, ?_⟩,
      fieldOk_dupSegment _⟩, ?_⟩
  · split
    · rename_i hc
      intro kv hkv
      rcases List.mem_singleton.mp hkv with rfl
      rw [hc]
      exact ⟨rfl, Json.Clean.bool true⟩
    · intro kv hkv
      simp at hkv
  · split
    · rename_i hc
      intro kv hkv
      rcases List.mem_singleton.mp hkv with rfl
      rw [hc]
      exact ⟨rfl, Json.Clean.bool true⟩
    · intro kv hkv
      simp at hkv
  · intro kv hkv
    rcases List.mem_singleton.mp hkv with rfl
    exact ⟨rfl, Json.Clean.str _⟩
  · split
    · intro kv hkv
      simp at hkv
    · intro kv hkv
      rcases List.mem_singleton.mp hkv with rfl
      refine ⟨rfl, clean_obj_of_fieldOk ?_⟩
      exact fieldOk_sortedMap ApiRegistryValue.toJson r.values
        (fun k a => badPair_shape k _ rfl rfl) apiRegistryValue_clean

lemma apiBackup_clean (b : ApiBackup) : Json.Clean (ApiBackup.toJson b) := by
  unfold ApiBackup.toJson
  apply clean_obj_of_fieldOk
  refine List.forall_mem_append.mpr ⟨List.forall_mem_append.mpr
    ⟨List.forall_mem_append.mpr ⟨?_, ?_⟩, ?_⟩, ?_⟩
  · intro kv hkv
    rcases List.mem_cons.mp hkv with rfl | hkv2
    · exact ⟨rfl, Json.Clean.str _⟩
    · rcases List.mem_singleton.mp hkv2 with rfl
      exact ⟨rfl, Json.Clean.str _⟩
  · rcases b.os with _ | o
    · intro kv hkv
      simp at hkv
    · intro kv hkv
      rcases List.mem_singleton.mp hkv with rfl
      exact ⟨rfl, Json.Clean.str o⟩
  · rcases b.comment with _ | c
    · intro kv hkv
      simp at hkv
    · intro kv hkv
      rcases List.mem_singleton.mp hkv with rfl
      exact ⟨rfl, Json.Clean.str c⟩
  · intro kv hkv
    rcases List.mem_singleton.mp hkv with rfl
    exact ⟨rfl, Json.Clean.bool _⟩

lemma apiGame_clean (g : ApiGame) : Json.Clean (ApiGame.toJson g) := by
  rcases g with ⟨decision, change, files, registry⟩ | backups | _
  · unfold ApiGame.toJson
    apply clean_obj_of_fieldOk
    intro kv hkv
    rcases List.mem_cons.mp hkv with rfl | hkv2
    · exact ⟨rfl, Json.Clean.str _⟩
    rcases List.mem_cons.mp hkv2 with rfl | hkv3
    · exact ⟨rfl, Json.Clean.str _⟩
    rcases List.mem_cons.mp hkv3 with rfl | hkv4
    · refine ⟨rfl, clean_obj_of_fieldOk ?_⟩
      exact fieldOk_sortedMap ApiFile.toJson files
        (fun k a => badPair_shape k _ rfl rfl) apiFile_clean
    rcases List.mem_singleton.mp hkv4 with rfl
    refine ⟨rfl, clean_obj_of_fieldOk ?_⟩
    exact fieldOk_sortedMap ApiRegistry.toJson registry
      (fun k a => badPair_shape k _ rfl rfl) apiRegistry_clean
  · unfold ApiGame.toJson
    apply clean_obj_of_fieldOk
    intro kv hkv
    rcases List.mem_singleton.mp hkv with rfl
    refine ⟨rfl, Json.Clean.arr _ ?_⟩
    intro x hx
    rcases List.mem_map.mp hx with ⟨b, _, rfl⟩
    exact apiBackup_clean b
  · exact clean_obj_of_fieldOk (by intro kv hkv; simp at hkv)

lemma operationStatus_clean (s : OperationStatus) :
    Json.Clean (OperationStatus.toJson s) := by
  unfold OperationStatus.toJson
  apply clean_obj_of_fieldOk
  intro kv hkv
  rcases List.mem_cons.mp hkv with rfl | hkv2
  · exact ⟨rfl, Json.Clean.nat _⟩
  rcases List.mem_cons.mp hkv2 with rfl | hkv3
  · exact ⟨rfl, Json.Clean.nat _⟩
  rcases List.mem_cons.mp hkv3 with rfl | hkv4
  · exact ⟨rfl, Json.Clean.nat _⟩
  rcases List.mem_cons.mp hkv4 with rfl | hkv5
  · exact ⟨rfl, Json.Clean.nat _⟩
  rcases List.mem_singleton.mp hkv5 with rfl
  refine ⟨rfl, clean_obj_of_fieldOk ?_⟩
  intro kv hkv
  rcases List.mem_cons.mp hkv with rfl | hkv2
  · exact ⟨rfl, Json.Clean.nat _⟩
  rcases List.mem_cons.mp hkv2 with rfl | hkv3
  · exact ⟨rfl, Json.Clean.nat _⟩
  rcases List.mem_singleton.mp hkv3 with rfl
  exact ⟨rfl, Json.Clean.nat _⟩

lemma jsonOutput_clean (out : JsonOutput) : Json.Clean (JsonOutput.toJson out) := by
  unfold JsonOutput.toJson
  apply clean_obj_of_fieldOk
  refine List.forall_mem_append.mpr ⟨List.forall_mem_append.mpr ⟨?_, ?_⟩, ?_⟩
  · rcases out.errors with _ | e
    · intro kv hkv
      simp at hkv
    · intro kv hkv
      rcases List.mem_singleton.mp hkv with rfl
      exact ⟨rfl, apiErrors_clean e⟩
  · rcases out.overall with _ | s
    · intro kv hkv
      simp at hkv
    · intro kv hkv
      rcases List.mem_singleton.mp hkv with rfl
      exact ⟨rfl, operationStatus_clean s⟩
  · intro kv hkv
    rcases List.mem_singleton.mp hkv with rfl
    refine ⟨rfl, clean_obj_of_fieldOk ?_⟩
    exact fieldOk_sortedMap ApiGame.toJson out.games
      (fun k a => badPair_shape k _ (by rcases a with _ | _ | _ <;> rfl)
        (by rcases a with _ | _ | _ <;> rfl)) apiGame_clean

def c1Backup : Backup :=
  { name := "b1", when_utc := "t1", os := none, comment := none, locked := false }

/-- C1, counterexample: the claim's "keys sorted and every default-valued
field omitted" fails on the code. The document produced by `add_backups`
on a fresh JSON reporter renders the always-emitted `locked` field as
`false` (a default-valued field, present), and its top-level keys are
["overall", "games"] — declaration order, not sorted, since "games"
precedes "overall" in the key order. -/
theorem C1_counterexample :
    ((((docOf (Reporter.json.add_backups ("g") [c1Backup])).bind
          (Json.topLookup ("games"))).bind (Json.topLookup ("g"))).bind
        (Json.topLookup ("backups"))).bind Json.arrHead =
      some (Json.obj [(("name"), Json.str ("b1")), (("when"), Json.str ("t1")),
        (("locked"), Json.bool false)]) ∧
    (docOf (Reporter.json.add_backups ("g") [c1Backup])).map Json.topKeys =
      some [("overall"), ("games")] ∧
    strLe ("games") ("overall") ∧ ("games" : String) ≠ ("overall") :=
  ⟨rfl, rfl, rfl, by decide⟩

/-- C1, amended: structured-mode serialization omits the
conditionally-serialized fields at their defaults — the document tree
never contains `failed: false`, `ignored: false`, or an empty
`duplicatedBy` array, and omission never produces `null` — and the map
keys (games, files, registry, values, duplicated-by sets) are emitted in
sorted order; struct fields keep declaration order, and always-emitted
fields such as `change`, `bytes` and `locked` appear even when
default-valued. -/
theorem C1_structured_omission (out : JsonOutput) :
    Json.Clean (JsonOutput.toJson out) ∧
    (∀ (l : List (String × Json)),
      List.Sorted (fun a b => strLe a.1 b.1) (sortPairs l)) ∧
    (∀ (l : List String), List.Sorted strLe (sortStrings l)) :=
  ⟨jsonOutput_clean out, fun l => sortPairs_sorted l,
    fun l => List.sorted_insertionSort strLe l⟩
